import Mathlib

/-!
Verification development for the document-structuring and rule-based
classification pipeline (rule_engine.py, document_extractor.py).

The Python source is embedded shallowly: pure string/list manipulation is
translated to executable Lean functions over `List Char` / `String`;
external effects (file system, regex library calls on user-supplied
patterns, the bibliographic lookup) appear as explicit inputs.
-/

set_option maxRecDepth 10000

/-! ### Character classes (ASCII fragment of Python's `\w`, `\s`, `\d`) -/

/-- ASCII whitespace recognized by Python's regex class behind a space. -/
def isWsChar (c : Char) : Bool :=
  c = ' ' || c = '\t' || c = '\n' || c = '\r' || c = '\x0b' || c = '\x0c'

/-- ASCII word character: letter, digit or underscore. -/
def isAsciiWordChar (c : Char) : Bool :=
  ('A' ≤ c && c ≤ 'Z') || ('a' ≤ c && c ≤ 'z') || ('0' ≤ c && c ≤ '9') || c = '_'

/-- Word character of Python's Unicode-aware backslash-w, modelled on the
ASCII and Latin-1 planes: the ASCII word characters together with the
Latin-1 word characters (feminine/masculine ordinals, superscripts, micro
sign, vulgar fractions and the accented letters, i.e. U+00AA, U+00B2-B3,
U+00B5, U+00B9-BA, U+00BC-BE, U+00C0-D6, U+00D8-F6, U+00F8-FF). Characters
above U+00FF are outside the modelled fragment. -/
def isWordChar (c : Char) : Bool :=
  isAsciiWordChar c
    || c.val = 0xAA || (0xB2 ≤ c.val && c.val ≤ 0xB3) || c.val = 0xB5
    || (0xB9 ≤ c.val && c.val ≤ 0xBA) || (0xBC ≤ c.val && c.val ≤ 0xBE)
    || (0xC0 ≤ c.val && c.val ≤ 0xD6) || (0xD8 ≤ c.val && c.val ≤ 0xF6)
    || (0xF8 ≤ c.val && c.val ≤ 0xFF)

/-- Decimal digit. -/
def isDigitChar (c : Char) : Bool :=
  '0' ≤ c && c ≤ '9'

/-! ### `RuleEngine.normalize_text`: lower-case, collapse whitespace, strip -/

/-- Collapse of every whitespace run to a single space
(`re.sub(r'\s+', ' ', text)` over the ASCII fragment). -/
def squeezeWs : List Char → List Char
  | [] => []
  | [c] => [if isWsChar c then ' ' else c]
  | a :: b :: rest =>
    if isWsChar a && isWsChar b then squeezeWs (b :: rest)
    else (if isWsChar a then ' ' else a) :: squeezeWs (b :: rest)

/-- Strip of leading and trailing whitespace (Python `str.strip`). -/
def stripWs (l : List Char) : List Char :=
  ((l.dropWhile isWsChar).reverse.dropWhile isWsChar).reverse

/-- Lowercasing of a character list (ASCII fragment of `str.lower`). -/
def lowerChars (l : List Char) : List Char :=
  l.map Char.toLower

/-- `RuleEngine.normalize_text`: lower-case, collapse whitespace runs to a
single space, strip. -/
def normalizeText (s : String) : String :=
  String.mk (stripWs (squeezeWs (lowerChars s.data)))

/-- Lowercased copy of a string (`str.lower`, ASCII fragment). -/
def lowerStr (s : String) : String :=
  String.mk (lowerChars s.data)

/-! ### Word-boundary keyword search
(`re.search(r'\b' + re.escape(kw) + r'\b', text)`) -/

/-- Word-ness of an optional character; a missing neighbour (string edge)
counts as a non-word position. -/
def wordOpt : Option Char → Bool
  | none => false
  | some c => isWordChar c

/-- Position between optional neighbours `a` and `b` is a regex word
boundary when exactly one side is a word character. -/
def isBoundary (a b : Option Char) : Bool :=
  wordOpt a != wordOpt b

/-- Match of the literal `kw` at the current position, with a word boundary
required on both sides (the keyword itself is escaped by the source, so it
matches literally). -/
def kwMatchAt (kw : List Char) (prev : Option Char) (rest : List Char) : Bool :=
  match kw with
  | [] => isBoundary prev rest.head?
  | k :: ks =>
    List.isPrefixOf (k :: ks) rest
      && isBoundary prev (some k)
      && isBoundary ((k :: ks).reverse.head?) ((rest.drop (ks.length + 1)).head?)

/-- Scan of every position of the text for a bounded literal match. -/
def kwSearch (kw : List Char) (prev : Option Char) : List Char → Bool
  | [] => kwMatchAt kw prev []
  | c :: cs => kwMatchAt kw prev (c :: cs) || kwSearch kw (some c) cs

/-- Whole-word containment used by `RuleEngine.match_keywords`. -/
def containsWordBounded (text kw : List Char) : Bool :=
  kwSearch kw none text

/-- Substring containment (Python's `needle in haystack` on strings). -/
def subOccurs (needle : List Char) : List Char → Bool
  | [] => List.isPrefixOf needle []
  | c :: cs => List.isPrefixOf needle (c :: cs) || subOccurs needle cs

/-! ### Data model of a loaded rule -/

/-- One entry of a rule's `patterns` list: the pattern source text together
with the denotation of `re.search(pattern, text, re.IGNORECASE)` as a
predicate on the (already normalized) text; `none` stands for a pattern the
regex compiler rejects, which the source logs and skips. -/
structure RulePattern where
  src : String
  compiled : Option (String → Bool)

/-- One loaded rule dictionary. Optional fields model the `'key' in rule`
checks of `RuleEngine.analyze`; `exclude` holds the per-field pattern lists
an include/exclude-format file carries (the engine never reads them). -/
structure Rule where
  title : Option String
  keywords : Option (List String)
  phrases : Option (List String)
  patterns : Option (List RulePattern)
  synonyms : Option (List (String × List String))
  weight : Option ℚ
  exclude : List (String × List String)

/-- Fixed label list `SDG_LABELS` of rule_engine.py. -/
def sdgLabelList : List String :=
  ["No Poverty", "Zero Hunger", "Good Health and Well-being", "Quality Education",
   "Gender Equality", "Clean Water and Sanitation", "Affordable and Clean Energy",
   "Decent Work and Economic Growth", "Industry, Innovation and Infrastructure",
   "Reduced Inequality", "Sustainable Cities and Communities",
   "Responsible Consumption and Production", "Climate Action", "Life Below Water",
   "Life on Land", "Peace, Justice and Strong Institutions", "Partnerships for the Goals"]

/-- One element of the list `RuleEngine.analyze` returns. -/
structure MatchResult where
  sdg : String
  matched_rules : List String
  match_count : Nat
  confidence : ℚ
  source : String
  kwDetail : List String
  phDetail : List String
  patDetail : List String
deriving DecidableEq

/-- Engine state: the `rules` dict (insertion order, keyed by category
number) and the `is_loaded` flag. -/
structure RuleEngine where
  rules : List (Nat × Rule)
  is_loaded : Bool

/-! ### Match-set computation (Python sets modelled as deduplicated lists;
only membership and cardinality of these lists are ever used) -/

/-- Set insertion: append the element unless already present. -/
def setInsert (acc : List String) (x : String) : List String :=
  if acc.contains x then acc else acc ++ [x]

/-- Set union of two deduplicated lists. -/
def listUnion (a b : List String) : List String :=
  b.foldl setInsert a

/-- `RuleEngine.match_keywords`: whole-word search for each lowercased
keyword in the normalized text; matched originals are collected as a set. -/
def matchKeywords (text : List Char) (kws : List String) : List String :=
  kws.foldl (fun acc kw =>
    if containsWordBounded text (lowerChars kw.data) then setInsert acc kw else acc) []

/-- `RuleEngine.match_phrases`: lowercased substring containment. -/
def matchPhrases (text : List Char) (phs : List String) : List String :=
  phs.foldl (fun acc ph =>
    if subOccurs (lowerChars ph.data) text then setInsert acc ph else acc) []

/-- `RuleEngine.match_patterns`: each compilable pattern is tested on the
normalized text; invalid patterns are skipped. -/
def matchPatterns (text : String) (pats : List RulePattern) : List String :=
  pats.foldl (fun acc p =>
    match p.compiled with
    | none => acc
    | some f => if f text then setInsert acc p.src else acc) []

/-- `RuleEngine.match_with_synonyms`: plain substring test of the keyword
or any synonym (all lowercased) in the text. -/
def synMatch (text : List Char) (kw : String) (syns : List String) : Bool :=
  subOccurs (lowerChars kw.data) text
    || syns.any (fun s => subOccurs (lowerChars s.data) text)

/-- Synonym pass of `RuleEngine.analyze`: each synonym-matching keyword is
added to the matched-keyword set. -/
def addSyns (text : List Char) (mk : List String) (syns : List (String × List String)) : List String :=
  syns.foldl (fun acc p => if synMatch text p.1 p.2 then setInsert acc p.1 else acc) mk

/-! ### Confidence -/

/-- Python's binary `min` on rationals, written so that it evaluates. -/
def qmin (a b : ℚ) : ℚ :=
  if a ≤ b then a else b

/-- Python `round(x, 2)` on an exact rational: round half to even at two
decimal places. -/
def round2 (q : ℚ) : ℚ :=
  let x := q * 100
  let f : ℤ := ⌊x⌋
  let r := x - (f : ℚ)
  let v : ℤ :=
    if r < 1/2 then f
    else if 1/2 < r then f + 1
    else if f % 2 = 0 then f else f + 1
  (v : ℚ) / 100

/-! ### `RuleEngine.analyze` -/

/-- Per-category body of the loop in `RuleEngine.analyze`: compute the
three match sets, add synonym matches, union them, and build the scored
result record. -/
def perCategoryCore (norm : String) (useSyn : Bool) (n : Nat) (rule : Rule) : MatchResult :=
  let mk := matchKeywords norm.data (rule.keywords.getD [])
  let mph := matchPhrases norm.data (rule.phrases.getD [])
  let mpa := matchPatterns norm (rule.patterns.getD [])
  let mk2 :=
    if useSyn then
      match rule.synonyms with
      | some syns => addSyns norm.data mk syns
      | none => mk
    else mk
  let allMatches := listUnion (listUnion mk2 mph) mpa
  { sdg := "SDG " ++ toString n ++ ": " ++ rule.title.getD (sdgLabelList.getD (n - 1) "")
    matched_rules := allMatches
    match_count := allMatches.length
    confidence := round2 (qmin 100 ((allMatches.length : ℚ) * 15 * (rule.weight.getD 1)))
    source := "rule_based"
    kwDetail := mk2
    phDetail := mph
    patDetail := mpa }

/-- Threshold gate of the loop: the category contributes its result exactly
when the match count reaches the minimum. -/
def perCategory (norm : String) (useSyn : Bool) (minMatches : Nat) (n : Nat) (rule : Rule) :
    Option MatchResult :=
  if minMatches ≤ (perCategoryCore norm useSyn n rule).match_count then
    some (perCategoryCore norm useSyn n rule)
  else none

/-- Stable descending insertion by confidence: the new element goes after
every existing element of greater or equal confidence, mirroring Python's
stable `list.sort(key=confidence, reverse=True)`. -/
def insertByConfDesc (r : MatchResult) : List MatchResult → List MatchResult
  | [] => [r]
  | x :: xs => if x.confidence < r.confidence then r :: x :: xs else x :: insertByConfDesc r xs

/-- Stable sort descending by confidence. -/
def sortByConfDesc (l : List MatchResult) : List MatchResult :=
  l.foldl (fun acc r => insertByConfDesc r acc) []

/-- `RuleEngine.analyze`: empty result when the rules are not loaded;
otherwise normalize, score each category, sort descending by confidence
and keep the top 10. -/
def analyze (e : RuleEngine) (text : String) (useSyn : Bool) (minMatches : Nat) :
    List MatchResult :=
  if e.is_loaded then
    let norm := normalizeText text
    let results := e.rules.foldl (fun acc p =>
      match perCategory norm useSyn minMatches p.1 p.2 with
      | some r => acc ++ [r]
      | none => acc) []
    (sortByConfDesc results).take 10
  else []

/-- Clearing of the unused `exclude` section of a rule. -/
def clearExclude (r : Rule) : Rule :=
  { r with exclude := [] }

/-- Engine whose every loaded rule has the default weight. -/
def weightsDefault (e : RuleEngine) : Prop :=
  ∀ p ∈ e.rules, p.2.weight.getD 1 = 1

/-! ### Concrete fixtures used by counterexamples and witnesses -/

/-- Simple-format rule with the single keyword `flood` and a non-empty
exclude section listing the same pattern. -/
def ruleC1 : Rule :=
  ⟨none, some ["flood"], none, none, none, none, [("TITLE_ABS", ["flood"])]⟩

/-- Engine loaded with `ruleC1` as category 1. -/
def engC1 : RuleEngine :=
  ⟨[(1, ruleC1)], true⟩

/-- Simple-format rule with the single keyword `flood` and no exclusions. -/
def ruleC2 : Rule :=
  ⟨none, some ["flood"], none, none, none, none, []⟩

/-- Engine loaded with `ruleC2` as category 1. -/
def engC2 : RuleEngine :=
  ⟨[(1, ruleC2)], true⟩

/-- Result `analyze engC2 "flood risk" true 1` produces. -/
def resC2 : MatchResult :=
  perCategoryCore (normalizeText "flood risk") true 1 ruleC2

/-- Fresh engine before any successful load. -/
def engUnloaded : RuleEngine :=
  ⟨[], false⟩

/-- Rule with 21 distinct keywords, all matching the fixture text. -/
def ruleC8 : Rule :=
  ⟨none,
   some ["a1", "a2", "a3", "a4", "a5", "a6", "a7", "a8", "a9", "a10", "a11",
         "a12", "a13", "a14", "a15", "a16", "a17", "a18", "a19", "a20", "a21"],
   none, none, none, none, []⟩

/-- Engine loaded with `ruleC8` as category 1. -/
def engC8 : RuleEngine :=
  ⟨[(1, ruleC8)], true⟩

/-- Text containing all 21 keywords of `ruleC8` as separate words. -/
def textC8 : String :=
  "a1 a2 a3 a4 a5 a6 a7 a8 a9 a10 a11 a12 a13 a14 a15 a16 a17 a18 a19 a20 a21"

/-- Result `analyze engC8 textC8 true 1` produces. -/
def resC8 : MatchResult :=
  perCategoryCore (normalizeText textC8) true 1 ruleC8

/-! ### `RuleEngine.load_rules` -/

/-- Content the loader finds for one category's `sdg_{n}.json`: missing
file, a file that is unreadable or fails to parse (raises), or a parsed
rule dictionary. -/
inductive FileContent where
  | missing
  | bad
  | good (r : Rule)

/-- File system the loader runs against: whether the rules directory
exists, and the content found for each category number. -/
structure RulesFS where
  dirExists : Bool
  file : Nat → FileContent

/-- Loader outcome: the `rules` dict when control leaves `load_rules`, the
`is_loaded` flag, and the returned boolean. -/
structure LoadOutcome where
  rules : List (Nat × Rule)
  is_loaded : Bool
  ret : Bool

/-- Loop of `RuleEngine.load_rules` over category numbers: a missing file
is skipped with a warning; a file that raises while being opened or parsed
aborts the whole call through the enclosing handler (which keeps the rules
accumulated so far but reports failure); a parsed file is stored. -/
def loadLoop (file : Nat → FileContent) : List Nat → List (Nat × Rule) → LoadOutcome
  | [], acc => if 0 < acc.length then ⟨acc, true, true⟩ else ⟨acc, false, false⟩
  | n :: ns, acc =>
    match file n with
    | .missing => loadLoop file ns acc
    | .bad => ⟨acc, false, false⟩
    | .good r => loadLoop file ns (acc ++ [(n, r)])

/-- `RuleEngine.load_rules`: fail when the directory is absent, otherwise
run the category loop over numbers 1..17. -/
def loadRules (fs : RulesFS) : LoadOutcome :=
  if fs.dirExists then loadLoop fs.file (List.range' 1 17) [] else ⟨[], false, false⟩

/-! ### DOI pattern
(`re.findall` of `\b(10\.\d{4,9}/[-._;()/:A-Z0-9]+)\b`, case-insensitive) -/

/-- Character class of the DOI suffix, with `re.IGNORECASE` folding in the
lowercase letters; every ASCII word character belongs to it, but non-ASCII
word characters do not. -/
def isDoiClassChar (c : Char) : Bool :=
  isAsciiWordChar c || c = '-' || c = '.' || c = ';' || c = '(' || c = ')' || c = '/'
    || c = ':'

/-- Word boundary before the literal `10`: the previous character (if any)
must not be a word character. -/
def startBoundary : Option Char → Bool
  | none => true
  | some c => !isWordChar c

/-- Backtracking of the greedy suffix against the closing word boundary:
given the word-ness of the character right after the full class run and
the run reversed, find the longest non-empty prefix of the run whose last
character's word-ness differs from that of the character following it (the
regex word-boundary condition). Returns the kept length and that last
character. -/
def sufBoundary (next0 : Bool) : List Char → Option (Nat × Char)
  | [] => none
  | c :: cs =>
    if isWordChar c != next0 then some (cs.length + 1, c)
    else sufBoundary (isWordChar c) cs

/-- Attempt of one DOI-pattern match at the current position. The greedy
suffix takes the longest run of class characters, then backtracks until
the closing word boundary holds — against the character following the run
(Unicode-aware: a non-word suffix character followed by a word character
outside the class, such as an accented letter, is a valid boundary, so a
match can end in a period); at least one suffix character must remain.
`10.` must be preceded by a non-word position, and the registrant code is
a run of 4 to 9 digits followed directly by `/`. On success the triple
holds the matched token, its final character and the remaining input. -/
def tryDoiMatch (prev : Option Char) (rest : List Char) :
    Option (List Char × Char × List Char) :=
  match rest with
  | a :: b :: dot :: tail =>
    if startBoundary prev && a = '1' && b = '0' && dot = '.' then
      let ds := tail.takeWhile isDigitChar
      let rest2 := tail.dropWhile isDigitChar
      if 4 ≤ ds.length && ds.length ≤ 9 then
        match rest2 with
        | slash :: tail2 =>
          if slash = '/' then
            let raw := tail2.takeWhile isDoiClassChar
            let rest3 := tail2.dropWhile isDoiClassChar
            match sufBoundary (wordOpt rest3.head?) raw.reverse with
            | none => none
            | some (k, lastC) =>
              some (a :: b :: dot :: (ds ++ slash :: raw.take k), lastC,
                raw.drop k ++ rest3)
          else none
        | [] => none
      else none
    else none
  | _ => none

/-- Scan for every non-overlapping DOI-pattern match, resuming after each
match as `re.findall` does. -/
def findDoiAux (fuel : Nat) (prev : Option Char) (rest : List Char) : List (List Char) :=
  match fuel with
  | 0 => []
  | fuel + 1 =>
    match rest with
    | [] => []
    | c :: cs =>
      match tryDoiMatch prev (c :: cs) with
      | some (m, lastC, cont) => m :: findDoiAux fuel (some lastC) cont
      | none => findDoiAux fuel (some c) cs

/-- `DocumentExtractor._find_doi_in_text`: all DOI-pattern matches in
reading order. -/
def findDoiInText (s : String) : List String :=
  (findDoiAux (s.data.length + 1) none s.data).map String.mk

/-- Python `s.rstrip('.')`: drop every trailing period. -/
def rstripDots (s : String) : String :=
  String.mk ((s.data.reverse.dropWhile (fun c => c = '.')).reverse)

/-- Identifier string that still carries a trailing period. -/
def endsInPeriod (s : String) : Prop :=
  s.data.reverse.head? = some '.'

/-- `DocumentExtractor._extract_doi_from_text`: first match, with trailing
periods stripped. -/
def extractDoiFromText (t : String) : Option String :=
  match findDoiInText t with
  | [] => none
  | m :: _ => some (rstripDots m)

/-- Page-structured view of a PDF as the DOI scanner reads it: the
document-metadata fields (key and stringified value; a falsy value is the
empty string) and the per-page extracted text. -/
structure PdfDoc where
  metadata : List (String × String)
  pages : List String

/-- Metadata pass of `DocumentExtractor._extract_doi_from_pdf`: the first
truthy metadata value containing a match gives the first such match,
returned as found. -/
def metaDoi (doc : PdfDoc) : Option String :=
  doc.metadata.findSome? (fun kv => if kv.2 = "" then none else (findDoiInText kv.2).head?)

/-- Cleaned match list of one page (trailing periods stripped). -/
def cleanPageMatches (page : String) : List String :=
  (findDoiInText page).map rstripDots

/-- Page step of `DocumentExtractor._extract_doi_from_pdf`: carry the page
counter; a page with more than 3 cleaned matches is skipped entirely,
otherwise its matches join the candidate list tagged with the page. -/
def pageStep (st : Nat × List (Nat × String)) (page : String) : Nat × List (Nat × String) :=
  let c := cleanPageMatches page
  if 3 < c.length then (st.1 + 1, st.2)
  else (st.1 + 1, st.2 ++ c.map (fun d => (st.1, d)))

/-- `DocumentExtractor._extract_doi_from_pdf`: metadata first, then the
page scan with the density filter, returning the first accumulated
candidate. -/
def extractDoiFromPdf (doc : PdfDoc) : Option String :=
  match metaDoi doc with
  | some d => some d
  | none => ((doc.pages.foldl pageStep (0, [])).2.head?).map (fun c => c.2)

/-- Surviving candidates when page numbering starts at `i`: keep only pages
whose match list has at most 3 entries and list their (page, identifier)
pairs in page order. -/
def survivingFrom (i : Nat) (pages : List String) : List (Nat × String) :=
  ((pages.enumFrom i).filter (fun ip => (cleanPageMatches ip.2).length ≤ 3)).flatMap
    (fun ip => (cleanPageMatches ip.2).map (fun d => (ip.1, d)))

/-- Surviving candidates in the spec's words: pair each page with its
index from 0, keep only pages whose match list has at most 3 entries, and
list their (page, identifier) pairs in page order. -/
def survivingCandidates (pages : List String) : List (Nat × String) :=
  survivingFrom 0 pages

/-! ### Year extraction of `DocumentExtractor._parse_structure`
(`re.search` of `\b(19|20)\d{2}\b` over early lines) -/

/-- Boundary after the fourth digit: end of line or a non-word char. -/
def endBoundary : List Char → Bool
  | [] => true
  | c :: _ => !isWordChar c

/-- Attempt of one year-pattern match at the current position: `19` or
`20`, two more digits, and word boundaries on both sides. -/
def tryYearMatch (prev : Option Char) (c : Char) (cs : List Char) : Option (List Char) :=
  match cs with
  | d0 :: d1 :: d2 :: rest =>
    if ((c = '1' && d0 = '9') || (c = '2' && d0 = '0')) && startBoundary prev
        && isDigitChar d1 && isDigitChar d2 && endBoundary rest then
      some [c, d0, d1, d2]
    else none
  | _ => none

/-- Leftmost match of the year pattern in one line. -/
def findYearAux (prev : Option Char) : List Char → Option (List Char)
  | [] => none
  | c :: cs =>
    match tryYearMatch prev c cs with
    | some y => some y
    | none => findYearAux (some c) cs

/-- Python `text.split('\n')`: split at every newline, keeping empty
pieces. -/
def splitNl : List Char → List (List Char)
  | [] => [[]]
  | c :: cs =>
    if c = '\n' then [] :: splitNl cs
    else
      match splitNl cs with
      | [] => [[c]]
      | t :: ts => (c :: t) :: ts

/-- First year match over a list of lines. -/
def yearScan (lines : List String) : Option String :=
  lines.findSome? (fun l => (findYearAux none l.data).map String.mk)

/-- Year field of `DocumentExtractor._parse_structure`: split into
stripped non-empty lines, scan the first 25 for a year match, empty string
when none is found. -/
def yearAfterParse (text : String) : String :=
  let lines := ((splitNl text.data).map (fun l => String.mk (stripWs l))).filter
    (fun l => l ≠ "")
  (yearScan (lines.take 25)).getD ""

/-- Four-digit year of the shape the spec promises: `19xx` or `20xx`. -/
def validYearShape (s : String) : Prop :=
  s.length = 4 ∧ (∀ c ∈ s.data, isDigitChar c = true) ∧
    (s.data.take 2 = ['1', '9'] ∨ s.data.take 2 = ['2', '0'])

/-! ### Record enrichment (`DocumentExtractor.extract_structured`,
DOI-metadata integration branch) -/

/-- JSON scalar as it reaches `str(...)`: the year value of a fetched
record is either the integer from `issued.date-parts` or the fallback
string `"Unknown year"`. -/
inductive JVal where
  | int (n : Int)
  | str (s : String)
deriving DecidableEq

/-- Python `str(...)` on such a scalar. -/
def jvalStr : JVal → String
  | .int n => toString n
  | .str s => s

/-- Successful payload of `DocumentExtractor._fetch_doi_metadata`. -/
structure DoiMeta where
  title : String
  year : JVal
  authorsList : List String
  publisher : String
  abstract : String
deriving DecidableEq

/-- Structured record as built by `_parse_structure` and mutated by the
enrichment branch. -/
structure Structured where
  title : String
  abstract : String
  keywords : List String
  fullText : String
  authors : List String
  year : String
  publisher : String
  doi : String
  doiMetadata : Option DoiMeta
deriving DecidableEq

/-- Enrichment branch of `DocumentExtractor.extract_structured` (taken when
a DOI was found and the fetch reports success): title is replaced only when
empty or the placeholder, abstract/authors/year only when empty, publisher
is always replaced, and the fetched record is attached. -/
def enrichWithMetadata (s : Structured) (meta : DoiMeta) : Structured :=
  { s with
    title := if s.title = "" ∨ s.title = "Untitled Document" then meta.title else s.title
    abstract := if s.abstract = "" then meta.abstract.take 2000 else s.abstract
    authors := if s.authors = [] then meta.authorsList else s.authors
    year := if s.year = "" then jvalStr meta.year else s.year
    publisher := meta.publisher
    doiMetadata := some meta }

/-! ### `DocumentExtractor.extract_from_bytes` -/

/-- Result of one dispatched extractor on the materialized bytes: the text
it returns, or the exception it raises (carrying the stringified error). -/
inductive ExtOutcome where
  | ok (text : String)
  | raise (msg : String)

/-- Extension as `os.path.splitext` computes it (including the dot): the
part of the basename from its last period, provided some earlier character
of the basename is not a period. -/
def splitextExt (filename : String) : String :=
  let base := (filename.data.reverse.takeWhile (fun c => c ≠ '/')).reverse
  let r := base.reverse
  let sufRev := r.takeWhile (fun c => c ≠ '.')
  if sufRev.length = r.length then ""
  else
    let before := r.drop (sufRev.length + 1)
    if before.any (fun c => c ≠ '.') then String.mk ('.' :: sufRev.reverse) else ""

/-- Extractor the supported extension dispatches to. -/
def dispatchOutcome (pdf docx legacyDoc txtLike : ExtOutcome) (ext : String) : ExtOutcome :=
  if ext = ".pdf" then pdf
  else if ext = ".docx" then docx
  else if ext = ".doc" then legacyDoc
  else txtLike

/-- File-kind string the supported extension maps to. -/
def kindOf (ext : String) : String :=
  if ext = ".pdf" then "PDF"
  else if ext = ".docx" then "DOCX"
  else if ext = ".doc" then "DOC"
  else "TEXT"

/-- Lower-cased extension of the declared filename. -/
def extOf (filename : String) : String :=
  lowerStr (splitextExt filename)

/-- `DocumentExtractor.extract_from_bytes`, with the four per-format
extractors supplied as oracles for what they would produce on these
bytes. Returns `(text, file_type_or_error, success)`. -/
def extractFromBytes (pdf docx legacyDoc txtLike : ExtOutcome) (filename : String) :
    String × String × Bool :=
  if filename = "" ∨ stripWs filename.data = [] then ("", "Invalid filename", false)
  else if extOf filename ∉ [".pdf", ".docx", ".doc", ".txt", ".rtf", ".md"] then
    ("", "Unsupported format: " ++ extOf filename, false)
  else
    match dispatchOutcome pdf docx legacyDoc txtLike (extOf filename) with
    | .raise msg => ("", "Extraction error: " ++ msg, false)
    | .ok text =>
      if text = "" ∨ stripWs text.data = [] then ("", "Empty text after extraction", false)
      else (text, kindOf (extOf filename), true)

/-- Error shapes `extract_from_bytes` reports on failure. -/
def errorDescription (m : String) : Prop :=
  m = "Invalid filename" ∨ m = "Empty text after extraction" ∨
    (∃ e, m = "Unsupported format: " ++ e) ∨ (∃ e, m = "Extraction error: " ++ e)

/-! ### Remaining concrete fixtures -/

/-- Rules directory holding one good file (category 1), one malformed file
(category 2) and nothing else. -/
def fsC3 : RulesFS :=
  ⟨true, fun n => if n = 1 then .good ruleC2 else if n = 2 then .bad else .missing⟩

/-- Page-structured document whose metadata contains no identifier, whose
page 0 holds the single real identifier and whose page 3 is a
reference-like page with 4 identifiers. -/
def docC6 : PdfDoc :=
  ⟨[("title", "A Study"), ("keywords", "")],
   ["intro 10.1000/page0 text", "no ids here", "still none",
    "refs 10.2000/r1 10.2000/r2 10.2000/r3 10.2000/r4"]⟩

/-- Page-structured document whose metadata value holds an identifier
followed by a period and an accented (Latin-1 word) character: the regex
boundary sits after the period, and the metadata path returns the match
without stripping. -/
def docC7 : PdfDoc :=
  ⟨[("title", "doi:10.1234/ab.é")], []⟩

/-- Fully populated structured record. -/
def s5 : Structured :=
  ⟨"A Title", "An abstract.", ["energy"], "full text", ["A. Author"], "1999",
   "Elsevier", "10.1/x", none⟩

/-- Fetched bibliographic record whose values all differ from `s5`. -/
def meta5 : DoiMeta :=
  ⟨"Other Title", .int 2001, ["B. Writer"], "Springer", "Other abstract."⟩

/-- Structured record whose year is exactly what parsing the fixture text
leaves: empty. -/
def s9 : Structured :=
  ⟨"Sample Title Value", "", [], "hello world", [], yearAfterParse "hello world",
   "", "", none⟩

/-- Fetched record whose `issued.date-parts` lookup failed, so the year
value is the fallback string. -/
def meta9 : DoiMeta :=
  ⟨"T", .str "Unknown year", ["A B"], "Pub", ""⟩

/-! ## Helper lemmas -/

/-- Head of an option-valued list access is a member. -/
lemma head?_mem {α : Type} {l : List α} {a : α} (h : l.head? = some a) : a ∈ l := by
  cases l with
  | nil => simp at h
  | cons b bs =>
    simp [List.head?] at h
    subst h
    exact List.mem_cons_self _ _

/-- Head of the remainder of `dropWhile` falsifies the predicate. -/
lemma dropWhile_head_false {α : Type} (p : α → Bool) :
    ∀ (l : List α) (c : α) (cs : List α), l.dropWhile p = c :: cs → p c = false := by
  intro l
  induction l with
  | nil => intro c cs h; simp [List.dropWhile] at h
  | cons a as ih =>
    intro c cs h
    rw [List.dropWhile_cons] at h
    by_cases hp : p a = true
    · rw [if_pos hp] at h
      exact ih c cs h
    · rw [if_neg hp] at h
      injection h with h1 _
      subst h1
      simpa using hp

/-- Witness extraction for a successful `findSome?`. -/
lemma findSome?_eq_some_mem {α β : Type} {f : α → Option β} {b : β} :
    ∀ {l : List α}, l.findSome? f = some b → ∃ a ∈ l, f a = some b := by
  intro l
  induction l with
  | nil => intro h; simp [List.findSome?] at h
  | cons a as ih =>
    intro h
    rw [List.findSome?_cons] at h
    cases hf : f a with
    | some c =>
      simp only [hf] at h
      exact ⟨a, List.mem_cons_self _ _, hf.trans h⟩
    | none =>
      simp only [hf] at h
      obtain ⟨x, hx, hfx⟩ := ih h
      exact ⟨x, List.mem_cons_of_mem _ hx, hfx⟩

/-- Membership through the stable insertion step. -/
lemma mem_insertByConfDesc {a r : MatchResult} :
    ∀ {l : List MatchResult}, a ∈ insertByConfDesc r l ↔ a = r ∨ a ∈ l := by
  intro l
  induction l with
  | nil => simp [insertByConfDesc]
  | cons x xs ih =>
    rw [insertByConfDesc]
    by_cases hx : x.confidence < r.confidence
    · rw [if_pos hx]
      simp [List.mem_cons]
    · rw [if_neg hx]
      simp [List.mem_cons, ih]
      tauto

/-- Membership through the sorting fold. -/
lemma mem_sortFold {a : MatchResult} :
    ∀ (l acc : List MatchResult),
      a ∈ l.foldl (fun acc r => insertByConfDesc r acc) acc ↔ a ∈ acc ∨ a ∈ l := by
  intro l
  induction l with
  | nil => intro acc; simp
  | cons x xs ih =>
    intro acc
    rw [List.foldl_cons, ih, mem_insertByConfDesc]
    simp [List.mem_cons]
    tauto

/-- Sorting by confidence preserves membership. -/
lemma mem_sortByConfDesc {a : MatchResult} {l : List MatchResult} :
    a ∈ sortByConfDesc l ↔ a ∈ l := by
  rw [sortByConfDesc, mem_sortFold]
  simp

/-- Every member of the per-category accumulation fold is either inherited
from the accumulator or produced by some listed category. -/
lemma foldOpt_mem (f : Nat × Rule → Option MatchResult) :
    ∀ (rules : List (Nat × Rule)) (acc : List MatchResult) (r : MatchResult),
      r ∈ rules.foldl (fun a p => match f p with | some x => a ++ [x] | none => a) acc →
      r ∈ acc ∨ ∃ p ∈ rules, f p = some r := by
  intro rules
  induction rules with
  | nil => intro acc r h; exact Or.inl h
  | cons q qs ih =>
    intro acc r h
    rw [List.foldl_cons] at h
    rcases ih _ r h with h' | ⟨p, hp, hfp⟩
    · cases hq : f q with
      | some x =>
        simp only [hq] at h'
        rcases List.mem_append.mp h' with h'' | h''
        · exact Or.inl h''
        · right
          refine ⟨q, List.mem_cons_self _ _, ?_⟩
          rw [hq, List.mem_singleton.mp h'']
      | none =>
        simp only [hq] at h'
        exact Or.inl h'
    · exact Or.inr ⟨p, List.mem_cons_of_mem _ hp, hfp⟩

/-- Every result `analyze` returns was produced by `perCategory` on some
loaded category. -/
lemma analyze_mem {e : RuleEngine} {t : String} {u : Bool} {mm : Nat} {r : MatchResult}
    (h : r ∈ analyze e t u mm) :
    ∃ p ∈ e.rules, perCategory (normalizeText t) u mm p.1 p.2 = some r := by
  rw [analyze] at h
  split at h
  · have h1 := List.mem_of_mem_take h
    have h2 := mem_sortByConfDesc.mp h1
    rcases foldOpt_mem _ e.rules [] r h2 with h3 | h3
    · simp at h3
    · exact h3
  · simp at h

/-- Shape of the fields a `perCategory` result carries. -/
lemma perCategory_fields {norm : String} {u : Bool} {mm n : Nat} {rule : Rule}
    {r : MatchResult} (h : perCategory norm u mm n rule = some r) :
    r.matched_rules.length = r.match_count ∧
      r.confidence = round2 (qmin 100 ((r.match_count : ℚ) * 15 * (rule.weight.getD 1))) := by
  rw [perCategory] at h
  split at h
  · injection h with h'
    subst h'
    exact ⟨rfl, rfl⟩
  · exact Option.noConfusion h

/-- Rounding to two decimals is the identity on integers. -/
lemma round2_natCast (n : ℕ) : round2 ((n : ℚ)) = n := by
  have h1 : ((n : ℚ)) * 100 = ((n * 100 : ℕ) : ℚ) := by push_cast; ring
  simp only [round2, h1, Int.floor_natCast, sub_self]
  norm_num

/-- Explicit minimum agrees with the order-theoretic one. -/
lemma qmin_eq_min (a b : ℚ) : qmin a b = min a b := by
  rw [qmin, min_def]

/-- Default-weight confidence simplifies to the saturating linear score. -/
lemma conf_weight_one (k : ℕ) :
    round2 (qmin 100 ((k : ℚ) * 15 * 1)) = min 100 (15 * (k : ℚ)) := by
  have h : qmin (100 : ℚ) ((k : ℚ) * 15 * 1) = ((min 100 (15 * k) : ℕ) : ℚ) := by
    rw [qmin_eq_min]
    push_cast
    rw [mul_one, mul_comm]
  rw [h, round2_natCast]
  push_cast
  rfl

/-- Per-category results are unchanged by clearing the exclude section. -/
lemma perCategory_clearExclude (norm : String) (u : Bool) (mm n : Nat) (r : Rule) :
    perCategory norm u mm n (clearExclude r) = perCategory norm u mm n r := by
  cases r
  rfl

/-- Clearing exclude sections commutes with the accumulation fold. -/
lemma foldClear (norm : String) (u : Bool) (mm : Nat) :
    ∀ (rules : List (Nat × Rule)) (acc : List MatchResult),
      (rules.map (fun p => (p.1, clearExclude p.2))).foldl
          (fun a p =>
            match perCategory norm u mm p.1 p.2 with
            | some x => a ++ [x]
            | none => a) acc =
        rules.foldl
          (fun a p =>
            match perCategory norm u mm p.1 p.2 with
            | some x => a ++ [x]
            | none => a) acc := by
  intro rules
  induction rules with
  | nil => intro acc; rfl
  | cons q qs ih =>
    intro acc
    rw [List.map_cons, List.foldl_cons, List.foldl_cons]
    rw [show (q.1, clearExclude q.2).1 = q.1 from rfl,
        show (q.1, clearExclude q.2).2 = clearExclude q.2 from rfl,
        perCategory_clearExclude]
    exact ih _

/-! ## Claim C1 -/

/-- C1 fails on the code: category 1 lists `flood` in its exclude section
and `flood` matches the text, yet the engine still reports the category
with `flood` in the match set and `match_count` 1 instead of subtracting
the exclude matches. -/
theorem c1_counterexample :
    (analyze engC1 "flood risk" true 1).map (fun r => (r.match_count, r.matched_rules)) =
        [(1, ["flood"])] ∧
      ruleC1.exclude = [("TITLE_ABS", ["flood"])] ∧
      containsWordBounded (normalizeText "flood risk").data (lowerChars "flood".data) = true := by
  exact ⟨by decide, by decide, by decide⟩

/-- C1 (amended): `RuleEngine.analyze` never consults the exclude sections
of its rules — clearing every exclude section leaves the output unchanged,
so the final match set is just the include-side union and an excluded
pattern that matches still contributes to `match_count`. -/
theorem c1_exclude_ignored (e : RuleEngine) (t : String) (u : Bool) (mm : Nat) :
    analyze ⟨e.rules.map (fun p => (p.1, clearExclude p.2)), e.is_loaded⟩ t u mm =
      analyze e t u mm := by
  rw [analyze, analyze]
  by_cases h : e.is_loaded = true
  · simp only [h, if_true]
    rw [foldClear]
  · have hb : e.is_loaded = false := by
      cases hb2 : e.is_loaded
      · rfl
      · exact absurd hb2 h
    simp [hb]

/-! ## Claim C2 -/

/-- C2 fails on the code: a category with one match reports confidence 15
(`match_count * 15` at default weight), not `min(100, 1*10+20) = 30`. -/
theorem c2_counterexample :
    analyze engC2 "flood risk" true 1 = [resC2] ∧ resC2.match_count = 1 ∧
      resC2.confidence = 15 ∧ (15 : ℚ) ≠ min 100 ((1 : ℚ) * 10 + 20) := by
  have hp : perCategory (normalizeText "flood risk") true 1 1 ruleC2 = some resC2 := rfl
  obtain ⟨-, hconf⟩ := perCategory_fields hp
  have hm : resC2.match_count = 1 := by decide
  rw [hm, show ruleC2.weight.getD 1 = 1 from rfl, conf_weight_one 1] at hconf
  refine ⟨rfl, hm, ?_, by norm_num⟩
  rw [hconf]
  norm_num

/-- C2 (amended): for default-weight rules every reported confidence equals
`min(100, match_count * 15)`; a category with `match_count` 10 still
reports exactly 100 because 150 saturates the cap. -/
theorem c2_confidence_formula (e : RuleEngine) (t : String) (u : Bool) (mm : Nat)
    (hw : weightsDefault e) :
    ∀ r ∈ analyze e t u mm,
      r.confidence = min 100 (15 * (r.match_count : ℚ)) ∧
        (r.match_count = 10 → r.confidence = 100) := by
  intro r hr
  obtain ⟨p, hp, hfp⟩ := analyze_mem hr
  obtain ⟨-, hconf⟩ := perCategory_fields hfp
  rw [hw p hp] at hconf
  rw [conf_weight_one] at hconf
  refine ⟨hconf, fun h10 => ?_⟩
  rw [hconf, h10]
  norm_num

/-- Witness: the fixture engine satisfies the default-weight hypothesis and
its single result carries the amended confidence formula. -/
theorem c2_witness :
    weightsDefault engC2 ∧ resC2 ∈ analyze engC2 "flood risk" true 1 ∧
      resC2.confidence = min 100 (15 * (resC2.match_count : ℚ)) := by
  have hw : weightsDefault engC2 := by
    intro p hp
    rw [List.mem_singleton.mp hp]
    rfl
  have hmem : resC2 ∈ analyze engC2 "flood risk" true 1 := by
    rw [show analyze engC2 "flood risk" true 1 = [resC2] from rfl]
    exact List.mem_singleton.mpr rfl
  exact ⟨hw, hmem, (c2_confidence_formula engC2 "flood risk" true 1 hw resC2 hmem).1⟩

/-! ## Claim C3 -/

/-- Return flag of the loader loop: true exactly when no remaining file
aborts and something was or will be loaded. -/
lemma loadLoop_ret (file : Nat → FileContent) :
    ∀ (ns : List Nat) (acc : List (Nat × Rule)),
      (loadLoop file ns acc).ret = true ↔
        ((∀ n ∈ ns, file n ≠ FileContent.bad) ∧
          (acc ≠ [] ∨ ∃ n ∈ ns, ∃ r, file n = FileContent.good r)) := by
  intro ns
  induction ns with
  | nil =>
    intro acc
    by_cases h : acc = []
    · subst h; simp [loadLoop]
    · simp [loadLoop, h, List.length_pos.mpr h]
  | cons n ns ih =>
    intro acc
    rw [loadLoop]
    cases h : file n with
    | missing =>
      rw [ih]
      simp [h, List.mem_cons]
    | bad =>
      simp [h, List.mem_cons]
    | good r =>
      rw [ih]
      simp [h, List.mem_cons]

/-- C3 fails on the code: with a good file for category 1 and a malformed
file for category 2, `load_rules` returns failure even though one category
loaded fine — a single bad file aborts the whole load. -/
theorem c3_counterexample :
    (loadRules fsC3).ret = false ∧ (loadRules fsC3).is_loaded = false ∧
      (loadRules fsC3).rules = [(1, ruleC2)] ∧ fsC3.file 2 = FileContent.bad := by
  exact ⟨rfl, rfl, rfl, rfl⟩

/-- C3 (amended): a missing rule file is skipped, but an unreadable or
malformed file aborts the whole load — the load succeeds exactly when the
directory exists, no category file in 1..17 raises, and at least one
category file parses. -/
theorem c3_load_success_iff (fs : RulesFS) :
    (loadRules fs).ret = true ↔
      fs.dirExists = true ∧ (∀ n ∈ List.range' 1 17, fs.file n ≠ FileContent.bad) ∧
        ∃ n ∈ List.range' 1 17, ∃ r, fs.file n = FileContent.good r := by
  rw [loadRules]
  by_cases h : fs.dirExists = true
  · rw [if_pos h, loadLoop_ret]
    simp [h]
  · rw [if_neg h]
    simp [h]

/-! ## Claim C4 -/

/-- C4 fails on the code: an engine with nothing loaded returns the empty
list from `analyze`, exactly the value a loaded engine returns on a text
with no matches — no distinguishable unavailability signal exists. -/
theorem c4_counterexample :
    analyze engUnloaded "hello world" true 1 = [] ∧
      engUnloaded.is_loaded = false ∧
      analyze engC2 "hello world" true 1 = [] ∧ engC2.is_loaded = true := by
  exact ⟨rfl, rfl, rfl, rfl⟩

/-- C4 (amended): whenever the rules are not loaded, `analyze` merely logs
and returns the empty list. -/
theorem c4_unloaded_returns_empty (e : RuleEngine) (t : String) (u : Bool) (mm : Nat)
    (h : e.is_loaded = false) : analyze e t u mm = [] := by
  rw [analyze, h]
  rfl

/-- Witness: the fresh engine is unloaded and yields the empty result. -/
theorem c4_witness :
    engUnloaded.is_loaded = false ∧ analyze engUnloaded "climate change" true 1 = [] :=
  ⟨rfl, c4_unloaded_returns_empty engUnloaded "climate change" true 1 rfl⟩

/-! ## Claim C5 -/

/-- C5 fails on the code: on a fully populated record the enrichment branch
still overwrites `publisher` with the fetched value, so the record is not
returned unchanged. -/
theorem c5_counterexample :
    s5.publisher = "Elsevier" ∧ (enrichWithMetadata s5 meta5).publisher = "Springer" ∧
      enrichWithMetadata s5 meta5 ≠ s5 := by
  refine ⟨rfl, rfl, ?_⟩
  intro h
  have := congrArg Structured.publisher h
  simp [enrichWithMetadata, s5, meta5] at this

/-- C5 (amended): enrichment preserves non-empty title (when it is not the
placeholder), abstract, authors and year, and never touches keywords — but
it always overwrites `publisher` with the fetched publisher and attaches
the fetched record. -/
theorem c5_enrich_preserves (s : Structured) (meta : DoiMeta)
    (ht : s.title ≠ "") (ht2 : s.title ≠ "Untitled Document")
    (ha : s.abstract ≠ "") (hau : s.authors ≠ []) (hy : s.year ≠ "") :
    (enrichWithMetadata s meta).title = s.title ∧
      (enrichWithMetadata s meta).abstract = s.abstract ∧
      (enrichWithMetadata s meta).keywords = s.keywords ∧
      (enrichWithMetadata s meta).authors = s.authors ∧
      (enrichWithMetadata s meta).year = s.year ∧
      (enrichWithMetadata s meta).publisher = meta.publisher := by
  rw [enrichWithMetadata]
  refine ⟨?_, ?_, rfl, ?_, ?_, rfl⟩
  · simp [ht, ht2]
  · simp [ha]
  · simp [hau]
  · simp [hy]

/-- Witness: the populated fixture satisfies every hypothesis and keeps its
year while its publisher is replaced. -/
theorem c5_witness :
    s5.title ≠ "" ∧ s5.title ≠ "Untitled Document" ∧ s5.abstract ≠ "" ∧
      s5.authors ≠ [] ∧ s5.year ≠ "" ∧
      (enrichWithMetadata s5 meta5).year = s5.year ∧
      (enrichWithMetadata s5 meta5).publisher = meta5.publisher := by
  refine ⟨by decide, by decide, by decide, by decide, by decide, ?_, ?_⟩
  · exact (c5_enrich_preserves s5 meta5 (by decide) (by decide) (by decide) (by decide)
      (by decide)).2.2.2.2.1
  · exact (c5_enrich_preserves s5 meta5 (by decide) (by decide) (by decide) (by decide)
      (by decide)).2.2.2.2.2

/-! ## Claim C8 -/

/-- C8 fails on the code: the single category's matched-pattern list has 21
entries, so it is not capped at 20 (and `list(set)` applies no ordering). -/
theorem c8_counterexample :
    (analyze engC8 textC8 true 1).map (fun r => r.matched_rules.length) = [21] ∧
      ¬ (21 ≤ 20) := by
  exact ⟨by decide, by norm_num⟩

/-- C8 (amended): a result's matched-pattern list is the full match set —
its length always equals `match_count` with no cap at 20; only the result
list itself is truncated, to the top 10 categories. -/
theorem c8_matched_rules_uncapped (e : RuleEngine) (t : String) (u : Bool) (mm : Nat) :
    (analyze e t u mm).length ≤ 10 ∧
      ∀ r ∈ analyze e t u mm, r.matched_rules.length = r.match_count := by
  constructor
  · rw [analyze]
    split
    · rw [List.length_take]
      exact min_le_left _ _
    · simp
  · intro r hr
    obtain ⟨p, hp, hfp⟩ := analyze_mem hr
    exact (perCategory_fields hfp).1

/-- Witness: the 21-keyword fixture result is a member whose matched list
length equals its match count (namely 21). -/
theorem c8_witness :
    resC8 ∈ analyze engC8 textC8 true 1 ∧
      resC8.matched_rules.length = resC8.match_count ∧ resC8.match_count = 21 := by
  have hmem : resC8 ∈ analyze engC8 textC8 true 1 := by
    rw [show analyze engC8 textC8 true 1 = [resC8] from rfl]
    exact List.mem_singleton.mpr rfl
  exact ⟨hmem, (c8_matched_rules_uncapped engC8 textC8 true 1).2 resC8 hmem, by decide⟩

/-! ## Claim C9 -/

/-- Shape of a successful year-pattern attempt. -/
lemma tryYear_shape {prev : Option Char} {c : Char} {cs : List Char} {y : List Char}
    (h : tryYearMatch prev c cs = some y) :
    ∃ d1 d2, (y = ['1', '9', d1, d2] ∨ y = ['2', '0', d1, d2]) ∧
      isDigitChar d1 = true ∧ isDigitChar d2 = true := by
  rw [tryYearMatch.eq_def] at h
  split at h
  · split at h
    · rename_i hcond
      injection h with h'
      subst h'
      simp only [Bool.and_eq_true, Bool.or_eq_true, decide_eq_true_eq] at hcond
      obtain ⟨⟨⟨⟨hcd, -⟩, hd1⟩, hd2⟩, -⟩ := hcond
      refine ⟨_, _, ?_, hd1, hd2⟩
      rcases hcd with ⟨rfl, rfl⟩ | ⟨rfl, rfl⟩
      · exact Or.inl rfl
      · exact Or.inr rfl
    · exact absurd h (by simp)
  · exact absurd h (by simp)

/-- Shape of a successful line scan. -/
lemma findYearAux_shape :
    ∀ (l : List Char) (prev : Option Char) (y : List Char),
      findYearAux prev l = some y →
      ∃ d1 d2, (y = ['1', '9', d1, d2] ∨ y = ['2', '0', d1, d2]) ∧
        isDigitChar d1 = true ∧ isDigitChar d2 = true := by
  intro l
  induction l with
  | nil => intro prev y h; simp [findYearAux] at h
  | cons c cs ih =>
    intro prev y h
    rw [findYearAux] at h
    cases ht : tryYearMatch prev c cs with
    | some y' =>
      simp only [ht] at h
      injection h with h'
      subst h'
      exact tryYear_shape ht
    | none =>
      simp only [ht] at h
      exact ih _ _ h

/-- Any year of the matched shape is a valid 19xx/20xx string. -/
lemma shape_validYear {y : List Char} {d1 d2 : Char}
    (hd1 : isDigitChar d1 = true) (hd2 : isDigitChar d2 = true)
    (h : y = ['1', '9', d1, d2] ∨ y = ['2', '0', d1, d2]) :
    validYearShape (String.mk y) := by
  rcases h with rfl | rfl
  · refine ⟨rfl, ?_, Or.inl rfl⟩
    intro c hc
    rw [show (String.mk ['1', '9', d1, d2]).data = ['1', '9', d1, d2] from rfl,
      List.mem_cons, List.mem_cons, List.mem_cons, List.mem_singleton] at hc
    rcases hc with rfl | rfl | rfl | rfl
    · decide
    · decide
    · exact hd1
    · exact hd2
  · refine ⟨rfl, ?_, Or.inr rfl⟩
    intro c hc
    rw [show (String.mk ['2', '0', d1, d2]).data = ['2', '0', d1, d2] from rfl,
      List.mem_cons, List.mem_cons, List.mem_cons, List.mem_singleton] at hc
    rcases hc with rfl | rfl | rfl | rfl
    · decide
    · decide
    · exact hd1
    · exact hd2

/-- Any year the line scan produces is a valid 19xx/20xx string. -/
lemma yearScan_valid {lines : List String} {y : String} (h : yearScan lines = some y) :
    validYearShape y := by
  rw [yearScan] at h
  obtain ⟨l, -, hl⟩ := findSome?_eq_some_mem h
  obtain ⟨yl, hyl, rfl⟩ := Option.map_eq_some'.mp hl
  obtain ⟨d1, d2, hsh, hd1, hd2⟩ := findYearAux_shape _ _ _ hyl
  exact shape_validYear hd1 hd2 hsh

/-- C9 fails on the code: a record whose parsed year is empty gets the
fetched year's string form verbatim — here the fallback `"Unknown year"`,
which is neither empty nor a 4-digit 19xx/20xx string. -/
theorem c9_counterexample :
    yearAfterParse "hello world" = "" ∧ s9.year = "" ∧
      (enrichWithMetadata s9 meta9).year = "Unknown year" ∧
      "Unknown year" ≠ "" ∧ ¬ validYearShape "Unknown year" := by
  refine ⟨rfl, rfl, rfl, by decide, ?_⟩
  intro hv
  exact absurd hv.1 (by decide)

/-- C9 (amended): the invariant holds directly after structure parsing —
the parsed year is empty or a 4-digit 19xx/20xx token — but enrichment can
replace an empty year with the arbitrary string form of the fetched year
value. -/
theorem c9_parse_year_invariant (text : String) :
    yearAfterParse text = "" ∨ validYearShape (yearAfterParse text) := by
  rw [yearAfterParse]
  cases hy : yearScan (((((splitNl text.data).map (fun l => String.mk (stripWs l))).filter
      (fun l => l ≠ "")).take 25)) with
  | none => left; simp [hy]
  | some y =>
    right
    simp only [hy, Option.getD_some]
    exact yearScan_valid hy

/-! ## Claim C6 -/

/-- One page step appends that page's surviving matches. -/
lemma pageStep_eq (st : Nat × List (Nat × String)) (page : String) :
    pageStep st page =
      (st.1 + 1, st.2 ++ (if 3 < (cleanPageMatches page).length then []
        else (cleanPageMatches page).map (fun d => (st.1, d)))) := by
  rw [pageStep]
  split
  · simp
  · rfl

/-- The page fold accumulates exactly the surviving candidates. -/
lemma pageFold :
    ∀ (pages : List String) (i : Nat) (acc : List (Nat × String)),
      (pages.foldl pageStep (i, acc)).2 = acc ++ survivingFrom i pages := by
  intro pages
  induction pages with
  | nil =>
    intro i acc
    simp [survivingFrom, List.enumFrom]
  | cons p ps ih =>
    intro i acc
    rw [List.foldl_cons, pageStep_eq, ih]
    rw [survivingFrom, survivingFrom]
    rw [show List.enumFrom i (p :: ps) = (i, p) :: List.enumFrom (i + 1) ps from rfl]
    rw [List.filter_cons]
    by_cases hd : 3 < (cleanPageMatches p).length
    · have h3 : ¬ ((cleanPageMatches p).length ≤ 3) := by omega
      simp [hd, h3]
    · have h3 : (cleanPageMatches p).length ≤ 3 := by omega
      simp [hd, h3, List.append_assoc]

/-- C6 holds: the page-structured identifier scan returns the metadata
match when one exists, and otherwise the first candidate among the
surviving pages — pages with more than 3 matches contribute nothing; on
the fixture document whose only identifier sits on page 0 while page 3
carries 4 identifiers, the page-0 identifier is returned. -/
theorem c6_density_filter :
    (∀ doc : PdfDoc,
        extractDoiFromPdf doc =
          match metaDoi doc with
          | some d => some d
          | none => ((survivingCandidates doc.pages).head?).map (fun c => c.2)) ∧
      extractDoiFromPdf docC6 = some "10.1000/page0" ∧
      (cleanPageMatches (docC6.pages.getD 3 "")).length = 4 := by
  refine ⟨?_, by decide, by decide⟩
  intro doc
  rw [extractDoiFromPdf]
  cases hm : metaDoi doc with
  | some d => rfl
  | none =>
    simp only []
    rw [show (doc.pages.foldl pageStep (0, [])).2 = [] ++ survivingFrom 0 doc.pages from
      pageFold doc.pages 0 []]
    rw [List.nil_append, survivingCandidates]

/-! ## Claim C7 -/

/-- Stripping trailing periods leaves no trailing period. -/
lemma rstrip_no_dot (s : String) : ¬ endsInPeriod (rstripDots s) := by
  rw [rstripDots, endsInPeriod]
  rw [show (String.mk ((s.data.reverse.dropWhile (fun c => c = '.')).reverse)).data =
      (s.data.reverse.dropWhile (fun c => c = '.')).reverse from rfl]
  rw [List.reverse_reverse]
  cases hdw : s.data.reverse.dropWhile (fun c => c = '.') with
  | nil => simp
  | cons a as =>
    have ha := dropWhile_head_false _ _ _ _ hdw
    simp only [decide_eq_false_iff_not] at ha
    simp [ha]

/-- C7 fails on the code: a document-metadata value containing
`10.1234/ab.` followed by the accented letter `é` (a Unicode word
character outside the suffix class) matches with the trailing period
kept, and the metadata path returns it without `rstrip('.')` — the
detector returns an identifier that still ends in a period. -/
theorem c7_counterexample :
    extractDoiFromPdf docC7 = some "10.1234/ab." ∧ endsInPeriod "10.1234/ab." := by
  exact ⟨by decide, by rw [endsInPeriod]; decide⟩

/-- C7 (amended): identifiers found in plain text or on a surviving page
have trailing periods stripped, because those two paths apply
`rstrip('.')`; the metadata path returns the raw match, which can retain a
trailing period. -/
theorem c7_stripped_paths (t : String) (doc : PdfDoc) (d : String) :
    (extractDoiFromText t = some d → ¬ endsInPeriod d) ∧
      (metaDoi doc = none → extractDoiFromPdf doc = some d → ¬ endsInPeriod d) := by
  constructor
  · intro h
    rw [extractDoiFromText] at h
    cases hf : findDoiInText t with
    | nil => simp only [hf] at h; exact Option.noConfusion h
    | cons m ms =>
      simp only [hf] at h
      injection h with h'
      subst h'
      exact rstrip_no_dot m
  · intro hm h
    rw [extractDoiFromPdf] at h
    simp only [hm] at h
    obtain ⟨pr, hpr, hd⟩ := Option.map_eq_some'.mp h
    have hmem : pr ∈ (doc.pages.foldl pageStep (0, [])).2 := head?_mem hpr
    rw [pageFold doc.pages 0 [], List.nil_append, survivingFrom] at hmem
    obtain ⟨ip, -, hmem2⟩ := List.mem_flatMap.mp hmem
    obtain ⟨d2, hd2, hpr2⟩ := List.mem_map.mp hmem2
    rw [cleanPageMatches] at hd2
    obtain ⟨x, -, hx⟩ := List.mem_map.mp hd2
    subst hd
    rw [← hpr2]
    rw [show ((ip.1, d2) : Nat × String).2 = d2 from rfl, ← hx]
    exact rstrip_no_dot x

/-- Witness: concrete extractions through the text path and through the
page path (metadata empty of identifiers) discharge both hypotheses. -/
theorem c7_witness :
    extractDoiFromText "see 10.1234/ab12. end" = some "10.1234/ab12" ∧
      ¬ endsInPeriod "10.1234/ab12" ∧
      metaDoi docC6 = none ∧ extractDoiFromPdf docC6 = some "10.1000/page0" ∧
      ¬ endsInPeriod "10.1000/page0" := by
  have h1 : extractDoiFromText "see 10.1234/ab12. end" = some "10.1234/ab12" := by decide
  have hm : metaDoi docC6 = none := by decide
  have h2 : extractDoiFromPdf docC6 = some "10.1000/page0" := by decide
  exact ⟨h1, (c7_stripped_paths "see 10.1234/ab12. end" docC6 "10.1234/ab12").1 h1, hm,
    h2, (c7_stripped_paths "see 10.1234/ab12. end" docC6 "10.1000/page0").2 hm h2⟩

/-! ## Claim C10 -/

/-- An unsupported-format message is never one of the four kind strings. -/
lemma unsupported_not_kind (e : String) :
    ("Unsupported format: " ++ e) ∉ (["PDF", "DOCX", "DOC", "TEXT"] : List String) := by
  intro hmem
  simp only [List.mem_cons, List.mem_singleton, List.not_mem_nil, or_false] at hmem
  rcases hmem with he | he | he | he <;>
    (have hl := congrArg String.length he
     rw [String.length_append,
       show ("Unsupported format: " : String).length = 20 from rfl] at hl
     first
       | rw [show ("PDF" : String).length = 3 from rfl] at hl
       | rw [show ("DOCX" : String).length = 4 from rfl] at hl
       | rw [show ("DOC" : String).length = 3 from rfl] at hl
       | rw [show ("TEXT" : String).length = 4 from rfl] at hl
     omega)

/-- An extraction-error message is never one of the four kind strings. -/
lemma extraction_error_not_kind (e : String) :
    ("Extraction error: " ++ e) ∉ (["PDF", "DOCX", "DOC", "TEXT"] : List String) := by
  intro hmem
  simp only [List.mem_cons, List.mem_singleton, List.not_mem_nil, or_false] at hmem
  rcases hmem with he | he | he | he <;>
    (have hl := congrArg String.length he
     rw [String.length_append,
       show ("Extraction error: " : String).length = 18 from rfl] at hl
     first
       | rw [show ("PDF" : String).length = 3 from rfl] at hl
       | rw [show ("DOCX" : String).length = 4 from rfl] at hl
       | rw [show ("DOC" : String).length = 3 from rfl] at hl
       | rw [show ("TEXT" : String).length = 4 from rfl] at hl
     omega)

/-- C10 holds: a failed extraction returns empty text and a human-readable
error description that is never a file kind, while a successful one returns
one of the four kind strings and text that is non-empty after stripping. -/
theorem c10_result_shape (pdf docx dl tl : ExtOutcome) (fn : String) :
    ((extractFromBytes pdf docx dl tl fn).2.2 = false →
        (extractFromBytes pdf docx dl tl fn).1 = "" ∧
          (extractFromBytes pdf docx dl tl fn).2.1 ∉
            (["PDF", "DOCX", "DOC", "TEXT"] : List String) ∧
          errorDescription (extractFromBytes pdf docx dl tl fn).2.1) ∧
      ((extractFromBytes pdf docx dl tl fn).2.2 = true →
        (extractFromBytes pdf docx dl tl fn).2.1 ∈
            (["PDF", "DOCX", "DOC", "TEXT"] : List String) ∧
          stripWs (extractFromBytes pdf docx dl tl fn).1.data ≠ []) := by
  rw [extractFromBytes]
  by_cases h1 : fn = "" ∨ stripWs fn.data = []
  · rw [if_pos h1]
    exact ⟨fun _ => ⟨rfl, by decide, Or.inl rfl⟩, fun hc => Bool.noConfusion hc⟩
  · rw [if_neg h1]
    by_cases h2 : extOf fn ∉ [".pdf", ".docx", ".doc", ".txt", ".rtf", ".md"]
    · rw [if_pos h2]
      exact ⟨fun _ => ⟨rfl, unsupported_not_kind (extOf fn),
        Or.inr (Or.inr (Or.inl ⟨extOf fn, rfl⟩))⟩, fun hc => Bool.noConfusion hc⟩
    · rw [if_neg h2]
      cases hdo : dispatchOutcome pdf docx dl tl (extOf fn) with
      | raise msg =>
        simp only [hdo]
        exact ⟨fun _ => ⟨by trivial, extraction_error_not_kind msg,
          Or.inr (Or.inr (Or.inr ⟨msg, by trivial⟩))⟩, fun hc => Bool.noConfusion hc⟩
      | ok text =>
        simp only [hdo]
        by_cases h3 : text = "" ∨ stripWs text.data = []
        · rw [if_pos h3]
          exact ⟨fun _ => ⟨rfl, by decide, Or.inr (Or.inl rfl)⟩,
            fun hc => Bool.noConfusion hc⟩
        · rw [if_neg h3]
          push_neg at h3
          refine ⟨fun hc => Bool.noConfusion hc, fun _ => ⟨?_, h3.2⟩⟩
          rw [kindOf]
          split_ifs <;> simp

/-- Witness: a plain-text upload with non-blank content succeeds with kind
`TEXT` and non-blank text, discharging the success-side hypothesis. -/
theorem c10_witness :
    (extractFromBytes (.ok "x") (.ok "x") (.ok "x") (.ok "hello") "notes.txt").2.2 = true ∧
      (extractFromBytes (.ok "x") (.ok "x") (.ok "x") (.ok "hello") "notes.txt").2.1 ∈
        (["PDF", "DOCX", "DOC", "TEXT"] : List String) ∧
      stripWs (extractFromBytes (.ok "x") (.ok "x") (.ok "x") (.ok "hello") "notes.txt").1.data
        ≠ [] := by
  refine ⟨by decide, ?_, ?_⟩
  · exact ((c10_result_shape (.ok "x") (.ok "x") (.ok "x") (.ok "hello") "notes.txt").2
      (by decide)).1
  · exact ((c10_result_shape (.ok "x") (.ok "x") (.ok "x") (.ok "hello") "notes.txt").2
      (by decide)).2
